import Mathlib

/-!
Verification of the tetrika repository (two small Python utilities) against
its natural-language specification.

Task 1 (`src/task1/solution.py`): the `strict` decorator, which collects the
declared non-return parameter types of a function and, on each call, checks
every positional and keyword argument value with `isinstance` against the
whole tuple of declared types (flat membership, not positional pairing),
raising `TypeError` on failure and delegating to the wrapped function
otherwise.

Task 2 (`src/task2/solution.py`): the `ParseWikiAnimals` scraper, whose
`_parse_page` accumulates per-letter counts from `mw-category-group` blocks
of a page into a dict, and whose `_next_page_url` resolves the pagination
anchor against the base URL.
-/

set_option autoImplicit false

namespace Task1

/-- Runtime type tags for the Python values that can appear in the calls the
source exercises. -/
inductive PyType where
  | int
  | str
  | float
  | bool
  | noneT
deriving DecidableEq, Repr

/-- Python runtime values (shallowly embedded); floats carry a rational
payload, which is never computed with past the type guard. -/
inductive PyVal where
  | vint (n : Int)
  | vstr (s : String)
  | vfloat (q : ℚ)
  | vbool (b : Bool)
  | vnone
deriving DecidableEq, Repr

/-- Python errors.  `typeError` models the `TypeError` raised by the `strict`
wrapper; its message is an f-string interpolating exactly the function name,
the positional args and the keyword args, so the error is modelled as
carrying those three fields.  `other` models any other `TypeError`-kind
failure (argument binding, unsupported operand). -/
inductive PyError where
  | typeError (fname : String) (args : List PyVal) (kwargs : List (String × PyVal))
  | other (msg : String)
deriving DecidableEq, Repr

/-- `isinstance(v, t)` for a single type tag.  Mirrors CPython semantics for
these types: `bool` is a subclass of `int`, so a `bool` value is an instance
of `int`. -/
def isinstanceOf (v : PyVal) (t : PyType) : Bool :=
  match v, t with
  | .vint _, .int => true
  | .vbool _, .int => true
  | .vbool _, .bool => true
  | .vstr _, .str => true
  | .vfloat _, .float => true
  | .vnone, .noneT => true
  | _, _ => false

/-- `isinstance(v, ts)` with a tuple of types: true iff `v` is an instance of
at least one member.  `isinstance(v, ())` is `False`. -/
def isinstanceAny (v : PyVal) (ts : List PyType) : Bool :=
  ts.any (isinstanceOf v)

/-- A Python function as the decorator sees it: its `__name__`, its
`__annotations__` (an ordered name-to-type mapping that includes the
`"return"` key when the return type is annotated), and its call behaviour on
positional plus keyword arguments. -/
structure PyFunc where
  name : String
  anns : List (String × PyType)
  call : List PyVal → List (String × PyVal) → Except PyError PyVal

/-- `param_types` of the wrapper body:
`tuple([value for key, value in func.__annotations__.items() if key != "return"])`. -/
def param_types (f : PyFunc) : List PyType :=
  (f.anns.filter (fun kv => kv.1 ≠ "return")).map (fun kv => kv.2)

/-- The body of `strict.wrapper`, instrumented with a flag recording whether
the wrapped function was invoked.  Mirrors the source line by line:
`args_ok`/`kwargs_ok` are the lists of `isinstance` results, and the wrapper
raises `TypeError(f"Некорректные типы аргументов для функции {func.__name__}:
{args} {kwargs}")` unless both lists are all true, in which case it returns
`func(*args, **kwargs)`. -/
def strictCallTraced (f : PyFunc) (args : List PyVal)
    (kwargs : List (String × PyVal)) : Except PyError PyVal × Bool :=
  let pts := param_types f
  let args_ok := args.map (fun a => isinstanceAny a pts)
  let kwargs_ok := kwargs.map (fun kv => isinstanceAny kv.2 pts)
  if !(args_ok.all (fun b => b)) || !(kwargs_ok.all (fun b => b)) then
    (.error (.typeError f.name args kwargs), false)
  else
    (f.call args kwargs, true)

/-- The decorated call itself (what `sum_two(...)` executes). -/
def strictCall (f : PyFunc) (args : List PyVal)
    (kwargs : List (String × PyVal)) : Except PyError PyVal :=
  (strictCallTraced f args kwargs).1

/-- The check the wrapper performs, as a single Boolean. -/
def strictOk (f : PyFunc) (args : List PyVal)
    (kwargs : List (String × PyVal)) : Bool :=
  (args.map (fun a => isinstanceAny a (param_types f))).all (fun b => b) &&
  (kwargs.map (fun kv => isinstanceAny kv.2 (param_types f))).all (fun b => b)

/-- Association lookup among keyword arguments. -/
def lookupKw (kwargs : List (String × PyVal)) (k : String) : Option PyVal :=
  match kwargs with
  | [] => none
  | (k₀, v₀) :: rest => if k₀ = k then some v₀ else lookupKw rest k

/-- Inner loop of `bindParams`: fill parameters from positional args first,
then from keyword args. -/
def bindGo (params : List String) (args : List PyVal)
    (kwargs : List (String × PyVal)) : Except PyError (List PyVal) :=
  match params, args with
  | [], _ => .ok []
  | p :: ps, [] =>
    match lookupKw kwargs p with
    | some v =>
      match bindGo ps [] kwargs with
      | .ok rest => .ok (v :: rest)
      | .error e => .error e
    | none => .error (.other ("missing required argument " ++ p))
  | _ :: ps, a :: rest =>
    match bindGo ps rest kwargs with
    | .ok bound => .ok (a :: bound)
    | .error e => .error e

/-- CPython's binding of positional and keyword arguments to a signature of
plain positional-or-keyword parameters with no defaults: raise `TypeError` on
surplus positional args, unknown keyword names, a keyword duplicating a
positional, or a missing parameter; otherwise return the bound values in
parameter order. -/
def bindParams (params : List String) (args : List PyVal)
    (kwargs : List (String × PyVal)) : Except PyError (List PyVal) :=
  if params.length < args.length then
    .error (.other "too many positional arguments")
  else if kwargs.any (fun kv => !(params.contains kv.1)) then
    .error (.other "unexpected keyword argument")
  else if (params.take args.length).any (fun p => (lookupKw kwargs p).isSome) then
    .error (.other "multiple values for argument")
  else
    bindGo params args kwargs

/-- Python `+` on the value kinds that can reach `a + b` in `sum_two`
(`bool` participates as an `int`). -/
def pyAdd (x y : PyVal) : Except PyError PyVal :=
  match x, y with
  | .vint a, .vint b => .ok (.vint (a + b))
  | .vint a, .vbool b => .ok (.vint (a + (if b then 1 else 0)))
  | .vbool a, .vint b => .ok (.vint ((if a then 1 else 0) + b))
  | .vbool a, .vbool b => .ok (.vint ((if a then 1 else 0) + (if b then 1 else 0)))
  | .vfloat a, .vfloat b => .ok (.vfloat (a + b))
  | .vfloat a, .vint b => .ok (.vfloat (a + (b : ℚ)))
  | .vint a, .vfloat b => .ok (.vfloat ((a : ℚ) + b))
  | _, _ => .error (.other "unsupported operand types for +")

/-- The undecorated `sum_two(a: int, b: int) -> int: return a + b`. -/
def sum_two_func : PyFunc where
  name := "sum_two"
  anns := [("a", .int), ("b", .int), ("return", .int)]
  call := fun args kwargs =>
    match bindParams ["a", "b"] args kwargs with
    | .ok [a, b] => pyAdd a b
    | .ok _ => .error (.other "bad binding arity")
    | .error e => .error e

end Task1

namespace Task2

/-- An HTML document node as BeautifulSoup exposes it: an element with a tag
name, attributes and children, or a navigable string. -/
inductive Node where
  | elem (tag : String) (attrs : List (String × String)) (children : List Node)
  | text (s : String)

/-- Attribute lookup on a tag (`tag["k"]` / `tag.has_attr("k")`); a navigable
string has no attributes. -/
def attrVal (n : Node) (k : String) : Option String :=
  match n with
  | .elem _ attrs _ => attrs.lookup k
  | .text _ => none

mutual

/-- `tag.find_all(...)`: all descendants of a node matching the predicate, in
document (preorder) order, the node itself excluded. -/
def findAllIn (p : Node → Bool) (n : Node) : List Node :=
  match n with
  | .text _ => []
  | .elem _ _ cs => findAllL p cs

/-- BeautifulSoup `find_all` over a forest of sibling nodes. -/
def findAllL (p : Node → Bool) (ns : List Node) : List Node :=
  match ns with
  | [] => []
  | c :: rest => (if p c then [c] else []) ++ findAllIn p c ++ findAllL p rest

end

/-- `tag.find(...)`: the first matching descendant, or `None`. -/
def findIn (p : Node → Bool) (n : Node) : Option Node :=
  (findAllIn p n).head?

mutual

/-- `tag.text` / `get_text()`: concatenation of every descendant string, in
document order. -/
def textOf (n : Node) : String :=
  match n with
  | .text s => s
  | .elem _ _ cs => textOfL cs

/-- `get_text()` over a forest of sibling nodes. -/
def textOfL (ns : List Node) : String :=
  match ns with
  | [] => ""
  | c :: rest => textOf c ++ textOfL rest

end

/-- BeautifulSoup `.string`: a navigable string is its own string; a tag with
exactly one child has its child's `.string`; any other tag has `None`. -/
def nodeString : Node → Option String
  | .text s => some s
  | .elem _ _ [c] => nodeString c
  | .elem _ _ [] => none
  | .elem _ _ (_ :: _ :: _) => none

/-- Does this node have the given tag name? -/
def isTag (t : String) (n : Node) : Bool :=
  match n with
  | .elem tg _ _ => tg = t
  | .text _ => false

/-- Matcher for `find("div", id=i)`. -/
def isDivWithId (i : String) (n : Node) : Bool :=
  isTag "div" n && (attrVal n "id" == some i)

/-- Accumulator pass splitting a char list into maximal whitespace-free
tokens; `acc` holds the current token reversed. -/
def classTokens (acc : List Char) : List Char → List String
  | [] => if acc.isEmpty then [] else [String.mk acc.reverse]
  | c :: cs =>
    if c.isWhitespace then
      (if acc.isEmpty then [] else [String.mk acc.reverse]) ++ classTokens [] cs
    else
      classTokens (c :: acc) cs

/-- The whitespace-separated tokens of an attribute value, as Python's
`str.split()` produces them. -/
def splitClasses (s : String) : List String :=
  classTokens [] s.toList

/-- Matcher for `find("div", class_=c)` / `attrs={"class": c}`:
BeautifulSoup matches when `c` is one of the whitespace-separated tokens of
the `class` attribute. -/
def isDivWithClass (c : String) (n : Node) : Bool :=
  isTag "div" n &&
    (match attrVal n "class" with
     | some v => (splitClasses v).contains c
     | none => false)

/-- Matcher for `find("a", string=s)`: an anchor whose `.string` equals `s`. -/
def isAnchorWithString (s : String) (n : Node) : Bool :=
  isTag "a" n && (nodeString n == some s)

end Task2

namespace Task2

/-- The substring test of Python's `in` operator on strings, over char
lists: `needle` occurs contiguously in the haystack (the empty needle always
occurs). -/
def hasSubList (needle : List Char) : List Char → Bool
  | [] => needle.isEmpty
  | c :: cs => needle.isPrefixOf (c :: cs) || hasSubList needle cs

/-- Python `needle in hay` for strings. -/
def strIn (needle hay : String) : Bool :=
  hasSubList needle.toList hay.toList

/-- Python `str.lower()` on the characters this program meets: ASCII
letters, the Cyrillic range А..Я and Ё. -/
def pyLowerChar (c : Char) : Char :=
  if 'A' ≤ c ∧ c ≤ 'Z' then Char.ofNat (c.toNat + 32)
  else if c = 'Ё' then 'ё'
  else if 'А' ≤ c ∧ c ≤ 'Я' then Char.ofNat (c.toNat + 32)
  else c

/-- Python `str.lower()`. -/
def pyLower (s : String) : String :=
  String.mk (s.toList.map pyLowerChar)

/-- Python `str.strip()` with no argument: remove leading and trailing
whitespace. -/
def pyStrip (s : String) : String :=
  String.mk (((s.toList.dropWhile Char.isWhitespace).reverse.dropWhile
    Char.isWhitespace).reverse)

/-- The module constant `russian_letters`: the 33 lowercase Cyrillic
letters as one string. -/
def russian_letters : String :=
  "абвгдеёжзийклмнопрстуфхцчшщъыьэюя"

/-- The module constant `BASE_URL`. -/
def BASE_URL : String :=
  "https://ru.wikipedia.org/wiki/Категория:Животные_по_алфавиту"

/-- The scraper's `letters_result` dict: an insertion-ordered mapping from
letter label to count. -/
abbrev LetterMap := List (String × Nat)

/-- Python `dict.get(k)`: the value at the first (unique) occurrence of the
key. -/
def dictGet (m : LetterMap) (k : String) : Option Nat :=
  match m with
  | [] => none
  | (k₀, v₀) :: rest => if k₀ = k then some v₀ else dictGet rest k

/-- Python `dict[k] = v`: update in place when the key exists (keeping its
insertion position), otherwise append at the end. -/
def dictSet (m : LetterMap) (k : String) (v : Nat) : LetterMap :=
  match m with
  | [] => [(k, v)]
  | (k₀, v₀) :: rest => if k₀ = k then (k, v) :: rest else (k₀, v₀) :: dictSet rest k v

/-- Warnings `_parse_page` can log. -/
inductive Warning where
  /-- the log line for a missing `mw-pages` div -/
  | noPagesDiv
  /-- the log line for a missing `mw-content-ltr` block -/
  | noContentDiv
deriving DecidableEq, Repr

/-- One iteration of the `for group in category_groups` loop of
`_parse_page`: find the group's `h3` and `ul`; skip the group when either is
missing; otherwise take the trimmed heading text as the letter, skip when
Russian-only filtering is on and `letter.lower() not in russian_letters`
(Python substring test), and otherwise merge
`letters_result[letter] = letters_result.get(letter, 0) + len(ul.find_all("li"))`. -/
def processGroup (onlyRussian : Bool) (m : LetterMap) (group : Node) : LetterMap :=
  match findIn (isTag "h3") group, findIn (isTag "ul") group with
  | some letter_tag, some ul_tag =>
    let letter := pyStrip (textOf letter_tag)
    if onlyRussian && !(strIn (pyLower letter) russian_letters) then m
    else
      let count := (findAllIn (isTag "li") ul_tag).length
      dictSet m letter ((dictGet m letter).getD 0 + count)
  | _, _ => m

/-- `ParseWikiAnimals._parse_page`, as a function from the document and the
current `letters_result` state to the new state plus the warnings logged
during the call: find `div#mw-pages` (warn and return unchanged when
absent), inside it `div.mw-content-ltr` (likewise), then fold the group loop
over all `div.mw-category-group` descendants. -/
def parsePage (onlyRussian : Bool) (soup : Node) (m : LetterMap) :
    LetterMap × List Warning :=
  match findIn (isDivWithId "mw-pages") soup with
  | none => (m, [Warning.noPagesDiv])
  | some category_div =>
    match findIn (isDivWithClass "mw-content-ltr") category_div with
    | none => (m, [Warning.noContentDiv])
    | some content_div =>
      let category_groups := findAllIn (isDivWithClass "mw-category-group") content_div
      (category_groups.foldl (processGroup onlyRussian) m, [])

/-- Split a char list at the first occurrence of `sep`, when there is one. -/
def splitAtSub (sep : List Char) : List Char → Option (List Char × List Char)
  | [] => none
  | c :: cs =>
    if sep.isPrefixOf (c :: cs) then some ([], (c :: cs).drop sep.length)
    else
      match splitAtSub sep cs with
      | some (pre, post) => some (c :: pre, post)
      | none => none

/-- Everything up to and including the last slash (empty when there is no
slash). -/
def keepThroughLastSlash (cs : List Char) : List Char :=
  (cs.reverse.dropWhile (fun c => c ≠ '/')).reverse

/-- Does the string start with the given piece?  (Structural version of
`str.startswith`.) -/
def strStartsWith (s piece : String) : Bool :=
  piece.toList.isPrefixOf s.toList

/-- `urllib.parse.urljoin` on the URL shapes this scraper meets: an empty
link keeps the base; a link with a scheme stands alone; `//…` keeps only the
base's scheme; `/…` replaces the base's path; anything else replaces the
base's last path segment. -/
def urljoin (base url : String) : String :=
  if url = "" then base
  else if (splitAtSub ("://".toList) url.toList).isSome then url
  else
    match splitAtSub ("://".toList) base.toList with
    | none => url
    | some (scheme, rest) =>
      let hostChars := rest.takeWhile (fun c => c ≠ '/')
      let pathChars := rest.drop hostChars.length
      let schemeHost := String.mk scheme ++ "://" ++ String.mk hostChars
      if strStartsWith url "//" then String.mk scheme ++ ":" ++ url
      else if strStartsWith url "/" then schemeHost ++ url
      else
        let kept := keepThroughLastSlash pathChars
        let kept := if kept.isEmpty then ['/'] else kept
        schemeHost ++ String.mk kept ++ url

/-- The label text of the pagination anchor. -/
def nextLabel : String := "Следующая страница"

/-- `ParseWikiAnimals._next_page_url`: find the first anchor whose `.string`
is «Следующая страница»; when it exists and has an `href`, join that href
against the base URL; otherwise `None`. -/
def nextPageUrl (base : String) (soup : Node) : Option String :=
  match findIn (isAnchorWithString nextLabel) soup with
  | some link =>
    match attrVal link "href" with
    | some href => some (urljoin base href)
    | none => none
  | none => none

end Task2

namespace Task1

/-- A function with parameters `(a: int, b: str) -> str`, used to exhibit the
flat-membership behaviour of the decorator on a signature with two distinct
parameter types; its body returns its second bound argument. -/
def mixed_fn : PyFunc where
  name := "mixed_fn"
  anns := [("a", .int), ("b", .str), ("return", .str)]
  call := fun args kwargs =>
    match bindParams ["a", "b"] args kwargs with
    | .ok [_, b] => .ok b
    | .ok _ => .error (.other "bad binding arity")
    | .error e => .error e

/-- A function with no non-return parameter annotations, used to exhibit the
behaviour of the decorator on an empty declared-type tuple. -/
def no_args_func : PyFunc where
  name := "noop"
  anns := [("return", .noneT)]
  call := fun _ _ => .ok .vnone

end Task1

namespace Task2

/-- Spec-side predicate, written from the spec's words rather than the code:
the string is a member of the fixed alphabet of 33 Cyrillic lowercase
letters (ё included), i.e. it is exactly one of those 33 one-letter
strings.  To be compared with the code's `strIn … russian_letters`
(a Python substring test). -/
def memberOfAlphabet (s : String) : Bool :=
  match s.toList with
  | [c] => russian_letters.toList.contains c
  | _ => false

/-- Fixture: a category entry `<li><a href=…>title</a></li>`. -/
def mkLi (title href : String) : Node :=
  .elem "li" [] [.elem "a" [("href", href)] [.text title]]

/-- Fixture: a letter group `<div class="mw-category-group"><h3>letter</h3><ul>…</ul></div>`. -/
def mkGroup (letter : String) (items : List Node) : Node :=
  .elem "div" [("class", "mw-category-group")]
    [.elem "h3" [] [.text letter], .elem "ul" [] items]

/-- Fixture: a whole page with the `mw-pages` / `mw-content-ltr` container
around the given groups. -/
def mkPage (groups : List Node) : Node :=
  .elem "[document]" []
    [.elem "div" [("id", "mw-pages")]
      [.elem "div" [("class", "mw-content-ltr")] groups]]

/-- Fixture: a page whose parse yields `{"А": 2}`. -/
def pageA : Node :=
  mkPage [mkGroup "А" [mkLi "Акула" "/wiki/Акула", mkLi "Амурский тигр" "/wiki/Амурский_тигр"]]

/-- Fixture: a page whose parse yields `{"А": 1, "Б": 1}`. -/
def pageB : Node :=
  mkPage [mkGroup "А" [mkLi "Аист" "/wiki/Аист"], mkGroup "Б" [mkLi "Бобр" "/wiki/Бобр"]]

/-- Fixture mirroring the source's `HTML_PARSE_ONLY_RU` test page: a
Cyrillic «Б» group and a Latin «C» group. -/
def pageRuMixed : Node :=
  mkPage [mkGroup "Б" [mkLi "Бобр" "/wiki/Бобр"], mkGroup "C" [mkLi "Camel" "/wiki/Camel"]]

/-- Fixture: a page whose single-group heading is the two-letter label «Аб»,
which is not a member of the 33-letter alphabet but is a contiguous
substring of it. -/
def pageAb : Node :=
  mkPage [mkGroup "Аб" [mkLi "Абрикосовая соня" "/wiki/Абрикосовая_соня"]]

/-- Fixture: a group that has a heading but no `ul` list. -/
def groupNoUl : Node :=
  .elem "div" [("class", "mw-category-group")] [.elem "h3" [] [.text "А"]]

/-- Fixture: a page containing a group without its list element next to a
normal «Б» group. -/
def pageMissingUl : Node :=
  mkPage [groupNoUl, mkGroup "Б" [mkLi "Бобр" "/wiki/Бобр"]]

/-- Fixture: a page with a good «А» group, a group lacking its list element,
and a good «Б» group. -/
def pageSkipMiddle : Node :=
  mkPage [mkGroup "А" [mkLi "Акула" "/wiki/Акула", mkLi "Аист" "/wiki/Аист"],
          groupNoUl,
          mkGroup "Б" [mkLi "Бобр" "/wiki/Бобр"]]

/-- Fixture: a document with no `mw-pages` container at all. -/
def pageNoContainer : Node :=
  .elem "[document]" [] [.elem "p" [] [.text "Конец списка"]]

/-- Fixture mirroring the source's `HTML_NEXT_LINK` test document. -/
def nextAnchor : Node :=
  .elem "a" [("href", "/wiki/Категория:Животные_по_алфавиту?pagefrom=Page2")]
    [.text "Следующая страница"]

/-- Fixture: the document holding `nextAnchor`. -/
def nextDoc : Node :=
  .elem "[document]" [] [nextAnchor]

/-- Fixture: an anchor that matches the pagination label but carries no
`href`. -/
def anchorNoHref : Node :=
  .elem "a" [] [.text "Следующая страница"]

/-- Fixture: an anchor with the pagination label and an `href`. -/
def anchorWithHref : Node :=
  .elem "a" [("href", "/w/next")] [.text "Следующая страница"]

/-- Fixture: a document in which a label-matching anchor without `href`
precedes a label-matching anchor with one. -/
def shadowDoc : Node :=
  .elem "[document]" [] [anchorNoHref, anchorWithHref]

end Task2

open Task1 in
/-- C1: for every function decorated by `strict` and every call whose
positional and keyword argument values all have runtime types that are
members of the function's declared parameter-type set, the decorated call
returns the same result as calling the undecorated function with the same
arguments; concretely, `sum_two(3, 7) == 10` and `sum_two(a=12, b=8) == 20`. -/
theorem c1_strict_ok_delegates :
    (∀ (f : PyFunc) (args : List PyVal) (kwargs : List (String × PyVal)),
      (∀ v ∈ args, isinstanceAny v (param_types f) = true) →
      (∀ kv ∈ kwargs, isinstanceAny kv.2 (param_types f) = true) →
      strictCall f args kwargs = f.call args kwargs) ∧
    strictCall sum_two_func [.vint 3, .vint 7] [] = .ok (.vint 10) ∧
    strictCall sum_two_func [] [("a", .vint 12), ("b", .vint 8)] = .ok (.vint 20) := by
  refine ⟨?_, rfl, rfl⟩
  intro f args kwargs ha hk
  have h1 : ((args.map fun a => isinstanceAny a (param_types f)).all fun b => b) = true := by
    simp only [List.all_eq_true, List.mem_map]
    rintro b ⟨v, hv, rfl⟩
    exact ha v hv
  have h2 : ((kwargs.map fun kv => isinstanceAny kv.2 (param_types f)).all fun b => b) = true := by
    simp only [List.all_eq_true, List.mem_map]
    rintro b ⟨kv, hkv, rfl⟩
    exact hk kv hkv
  simp [strictCall, strictCallTraced, h1, h2]

open Task1 in
/-- Witness for C1: the general delegation statement applied to the concrete
call `sum_two(5, 6)`. -/
theorem c1_strict_ok_delegates_witness :
    strictCall sum_two_func [.vint 5, .vint 6] [] =
      sum_two_func.call [.vint 5, .vint 6] [] :=
  c1_strict_ok_delegates.1 sum_two_func [.vint 5, .vint 6] []
    (by decide) (by simp)

open Task1 in
/-- C2: a call with at least one argument value whose runtime type is not a
member of the declared parameter-type set raises a `TypeError` carrying the
wrapped function's name and the call's arguments (hence the offending ones),
and the wrapped function is not invoked; concretely `sum_two(1, "2")` and
`sum_two(1.5, 2)` raise. -/
theorem c2_bad_type_raises :
    (∀ (f : PyFunc) (args : List PyVal) (kwargs : List (String × PyVal)),
      (∃ v, (v ∈ args ∨ ∃ k, (k, v) ∈ kwargs) ∧
        isinstanceAny v (param_types f) = false) →
      strictCallTraced f args kwargs =
        (.error (.typeError f.name args kwargs), false)) ∧
    strictCallTraced sum_two_func [.vint 1, .vstr "2"] [] =
      (.error (.typeError "sum_two" [.vint 1, .vstr "2"] []), false) ∧
    strictCallTraced sum_two_func [.vfloat (3/2 : ℚ), .vint 2] [] =
      (.error (.typeError "sum_two" [.vfloat (3/2 : ℚ), .vint 2] []), false) := by
  refine ⟨?_, rfl, rfl⟩
  rintro f args kwargs ⟨v, hv | ⟨k, hk⟩, hbad⟩
  · have h1 : ((args.map fun a => isinstanceAny a (param_types f)).all fun b => b) = false := by
      rw [Bool.eq_false_iff]
      intro hall
      have := List.all_eq_true.mp hall _ (List.mem_map_of_mem _ hv)
      rw [hbad] at this
      exact Bool.false_ne_true this
    simp [strictCallTraced, h1]
  · have h2 : ((kwargs.map fun kv => isinstanceAny kv.2 (param_types f)).all fun b => b) = false := by
      rw [Bool.eq_false_iff]
      intro hall
      have := List.all_eq_true.mp hall _ (List.mem_map_of_mem (fun kv => isinstanceAny kv.2 (param_types f)) hk)
      rw [hbad] at this
      exact Bool.false_ne_true this
    simp [strictCallTraced, h2]

open Task1 in
/-- Witness for C2: the general statement applied to `sum_two(1, "2")`,
whose second argument is a `str` while the declared type set is `{int}`. -/
theorem c2_bad_type_raises_witness :
    strictCallTraced sum_two_func [.vint 1, .vstr "2"] [] =
      (.error (.typeError "sum_two" [.vint 1, .vstr "2"] []), false) :=
  c2_bad_type_raises.1 sum_two_func [.vint 1, .vstr "2"] []
    ⟨.vstr "2", Or.inl (by simp), by decide⟩

open Task1 in
/-- C3: validation by `strict` is a flat membership test, not positional
pairing: for `mixed_fn(a: int, b: str)`, the call `mixed_fn(1, 2)` passes an
integer in the `str` position, yet validation succeeds (because `int` is in
the declared type set) and the wrapped function is invoked, returning its
result. -/
theorem c3_flat_membership_gap :
    strictOk mixed_fn [.vint 1, .vint 2] [] = true ∧
    strictCallTraced mixed_fn [.vint 1, .vint 2] [] = (.ok (.vint 2), true) :=
  ⟨rfl, rfl⟩

open Task1 in
/-- C9: when the declared non-return parameter-type set is empty, every call
with at least one positional or keyword argument raises `TypeError` (no
value is an instance of a member of the empty tuple), while a call with no
arguments delegates to the wrapped function. -/
theorem c9_empty_type_tuple :
    ∀ (f : PyFunc) (args : List PyVal) (kwargs : List (String × PyVal)),
      param_types f = [] →
      ((args ≠ [] ∨ kwargs ≠ []) →
        strictCallTraced f args kwargs =
          (.error (.typeError f.name args kwargs), false)) ∧
      strictCall f [] [] = f.call [] [] := by
  intro f args kwargs hf
  constructor
  · intro hne
    match args, kwargs with
    | [], [] => rcases hne with h | h <;> exact absurd rfl h
    | [], kv :: rest => simp [strictCallTraced, hf, isinstanceAny]
    | a :: rest, _ => simp [strictCallTraced, hf, isinstanceAny]
  · rfl

open Task1 in
/-- Witness for C9: applied to `no_args_func`, whose only annotation is the
return type, at the call `no_args_func(1)`. -/
theorem c9_empty_type_tuple_witness :
    strictCallTraced no_args_func [.vint 1] [] =
      (.error (.typeError "noop" [.vint 1] []), false) :=
  (c9_empty_type_tuple no_args_func [.vint 1] [] rfl).1
    (Or.inl (List.cons_ne_nil _ _))

open Task2 in
/-- C4: page accumulation is an additive merge.  For every group with a
heading and a list that passes the filter, the new mapping is the old one
with the letter's entry set to its previous value (0 when absent) plus the
group's list-item count; `dictGet` after `dictSet` reads that sum back; and
parsing page A (` {"А": 2}`) then page B (`{"А": 1, "Б": 1}`) into the same
state yields `{"А": 3, "Б": 1}`. -/
theorem c4_additive_merge :
    (∀ (ro : Bool) (m : LetterMap) (g lt ut : Node),
      findIn (isTag "h3") g = some lt →
      findIn (isTag "ul") g = some ut →
      (ro && !(strIn (pyLower (pyStrip (textOf lt))) russian_letters)) = false →
      processGroup ro m g =
        dictSet m (pyStrip (textOf lt))
          ((dictGet m (pyStrip (textOf lt))).getD 0 +
            (findAllIn (isTag "li") ut).length)) ∧
    (∀ (m : LetterMap) (k : String) (v : ℕ), dictGet (dictSet m k v) k = some v) ∧
    parsePage false pageB (parsePage false pageA []).1 = ([("А", 3), ("Б", 1)], []) := by
  refine ⟨?_, ?_, rfl⟩
  · intro ro m g lt ut h1 h2 hf
    simp [processGroup, h1, h2, hf]
  · intro m k v
    induction m with
    | nil => simp [dictSet, dictGet]
    | cons kv rest ih =>
      obtain ⟨k₀, v₀⟩ := kv
      by_cases h : k₀ = k
      · simp [dictSet, dictGet, h]
      · simp [dictSet, dictGet, h, ih]

open Task2 in
/-- Witness for C4: the merge statement applied to an «А» group with one
entry over a state already holding `{"А": 2}`. -/
theorem c4_additive_merge_witness :
    processGroup false [("А", 2)] (mkGroup "А" [mkLi "Аист" "/wiki/Аист"]) = [("А", 3)] := by
  have h := c4_additive_merge.1 false [("А", 2)] (mkGroup "А" [mkLi "Аист" "/wiki/Аист"])
    (Node.elem "h3" [] [.text "А"]) (Node.elem "ul" [] [mkLi "Аист" "/wiki/Аист"])
    rfl rfl rfl
  rw [h]
  decide

open Task2 in
/-- Counterexample to C5: the code's Russian-only filter is the Python
substring test `letter.lower() in russian_letters`, not membership in the
set of 33 letters.  The two-letter group label «Аб» lowercases to «аб»,
which is not one of the 33 Cyrillic letters, yet the group is counted. -/
theorem c5_counterexample :
    memberOfAlphabet (pyLower "Аб") = false ∧
    parsePage true pageAb [] = ([("Аб", 1)], []) :=
  ⟨rfl, rfl⟩

open Task2 in
/-- C5 as amended: with Russian-only filtering on, a group with heading and
list contributes iff its stripped, lowercased label occurs as a contiguous
substring of the 33-letter alphabet string; on single-character labels this
substring test coincides with membership in the 33 letters; and on the
source's own test page the Latin «C» group contributes nothing while «Б»
contributes normally. -/
theorem c5_substring_filter :
    (∀ (m : LetterMap) (g lt ut : Node),
      findIn (isTag "h3") g = some lt →
      findIn (isTag "ul") g = some ut →
      processGroup true m g =
        (if strIn (pyLower (pyStrip (textOf lt))) russian_letters then
          dictSet m (pyStrip (textOf lt))
            ((dictGet m (pyStrip (textOf lt))).getD 0 +
              (findAllIn (isTag "li") ut).length)
        else m)) ∧
    (∀ c : Char, russian_letters.toList.contains c = strIn (String.mk [c]) russian_letters) ∧
    parsePage true pageRuMixed [] = ([("Б", 1)], []) := by
  refine ⟨?_, ?_, rfl⟩
  · intro m g lt ut h1 h2
    cases hX : strIn (pyLower (pyStrip (textOf lt))) russian_letters <;>
      simp [processGroup, h1, h2, hX]
  · intro c
    have key : ∀ l : List Char, hasSubList [c] l = l.contains c := by
      intro l
      induction l with
      | nil => rfl
      | cons x xs ih =>
        simp only [hasSubList, List.isPrefixOf, List.contains_cons, ih]
        cases hcx : (c == x)
        · have hxc : (x == c) = false := by
            rw [beq_eq_false_iff_ne] at hcx ⊢
            exact fun hxceq => hcx hxceq.symm
          simp [hxc]
        · have hxc : (x == c) = true := by
            rw [beq_iff_eq] at hcx ⊢
            exact hcx.symm
          simp [hxc]
    exact (key russian_letters.toList).symm

open Task2 in
/-- Witness for C5 (amended): the filter statement applied to a concrete
«Б» group over the empty state. -/
theorem c5_substring_filter_witness :
    processGroup true [] (mkGroup "Б" [mkLi "Бобр" "/wiki/Бобр"]) = [("Б", 1)] := by
  have h := c5_substring_filter.1 [] (mkGroup "Б" [mkLi "Бобр" "/wiki/Бобр"])
    (Node.elem "h3" [] [.text "Б"]) (Node.elem "ul" [] [mkLi "Бобр" "/wiki/Бобр"])
    rfl rfl
  rw [h]
  decide

open Task2 in
/-- Counterexample to C6: a page whose container is present but one of whose
groups lacks its `ul` list element is NOT warned about and NOT left
unprocessed — the defective group is skipped and the remaining «Б» group
still updates the mapping, so the parse neither logs a warning nor returns
with the state unchanged. -/
theorem c6_counterexample :
    parsePage false pageMissingUl [] = ([("Б", 1)], []) ∧
    ¬ ((parsePage false pageMissingUl []).1 = [] ∧
       (parsePage false pageMissingUl []).2 ≠ []) := by
  refine ⟨rfl, ?_⟩
  decide

open Task2 in
/-- C6 as amended: for every parsed page missing a container element (the
`mw-pages` div, or the `mw-content-ltr` block inside it), `_parse_page` logs
the corresponding warning and returns with the mapping unchanged, raising no
exception (the embedded step is total); a group's missing list element, by
contrast, is handled by C10's silent skip. -/
theorem c6_missing_container :
    (∀ (ro : Bool) (soup : Node) (m : LetterMap),
      findIn (isDivWithId "mw-pages") soup = none →
      parsePage ro soup m = (m, [Warning.noPagesDiv])) ∧
    (∀ (ro : Bool) (soup d : Node) (m : LetterMap),
      findIn (isDivWithId "mw-pages") soup = some d →
      findIn (isDivWithClass "mw-content-ltr") d = none →
      parsePage ro soup m = (m, [Warning.noContentDiv])) := by
  constructor
  · intro ro soup m h
    simp [parsePage, h]
  · intro ro soup d m h1 h2
    simp [parsePage, h1, h2]

open Task2 in
/-- Witness for C6 (amended): a document with no `mw-pages` container leaves
a non-empty mapping untouched and logs the warning. -/
theorem c6_missing_container_witness :
    parsePage false pageNoContainer [("я", 5)] = ([("я", 5)], [Warning.noPagesDiv]) :=
  c6_missing_container.1 false pageNoContainer [("я", 5)] rfl

open Task2 in
/-- Counterexample to C7: `_next_page_url` looks only at the FIRST anchor
whose `.string` is «Следующая страница».  `shadowDoc` contains an anchor
with that visible text carrying an `href`, yet the step returns `None`,
because an earlier matching anchor has no `href`. -/
theorem c7_counterexample :
    isTag "a" anchorWithHref = true ∧
    textOf anchorWithHref = nextLabel ∧
    attrVal anchorWithHref "href" = some "/w/next" ∧
    anchorWithHref ∈ findAllIn (fun _ => true) shadowDoc ∧
    nextPageUrl BASE_URL shadowDoc = none := by
  refine ⟨rfl, rfl, rfl, ?_, rfl⟩
  show anchorWithHref ∈
    [anchorNoHref, Node.text "Следующая страница", anchorWithHref,
     Node.text "Следующая страница"]
  exact List.Mem.tail _ (List.Mem.tail _ (List.Mem.head _))

open Task2 in
/-- C7 as amended: `_next_page_url` resolves through the first anchor in
document order whose `.string` equals the fixed label: when that anchor
carries an `href` the result is the base URL joined with it; when it carries
none, or when no anchor matches at all, the result is the no-next sentinel
`None`. -/
theorem c7_next_link :
    (∀ (base : String) (soup link : Node) (href : String),
      findIn (isAnchorWithString nextLabel) soup = some link →
      attrVal link "href" = some href →
      nextPageUrl base soup = some (urljoin base href)) ∧
    (∀ (base : String) (soup link : Node),
      findIn (isAnchorWithString nextLabel) soup = some link →
      attrVal link "href" = none →
      nextPageUrl base soup = none) ∧
    (∀ (base : String) (soup : Node),
      findIn (isAnchorWithString nextLabel) soup = none →
      nextPageUrl base soup = none) := by
  refine ⟨?_, ?_, ?_⟩
  · intro base soup link href h1 h2
    simp [nextPageUrl, h1, h2]
  · intro base soup link h1 h2
    simp [nextPageUrl, h1, h2]
  · intro base soup h1
    simp [nextPageUrl, h1]

open Task2 in
/-- Witness for C7 (amended): the source's own test document, whose anchor
holds a relative href, resolves to the base URL joined with it. -/
theorem c7_next_link_witness :
    nextPageUrl BASE_URL nextDoc =
      some (urljoin BASE_URL "/wiki/Категория:Животные_по_алфавиту?pagefrom=Page2") :=
  c7_next_link.1 BASE_URL nextDoc nextAnchor
    "/wiki/Категория:Животные_по_алфавиту?pagefrom=Page2" rfl rfl

open Task2 in
/-- C8: page extraction is deterministic — parsing the same page content
into a fresh (empty) mapping twice yields identical mapping contents both
times; `_parse_page` is embedded as a pure function of the page content and
the incoming state, with no other inputs. -/
theorem c8_parse_deterministic :
    ∀ (onlyRussian : Bool) (content : Node),
      parsePage onlyRussian content [] = parsePage onlyRussian content [] :=
  fun _ _ => rfl

open Task2 in
/-- C10: a group lacking its heading or its list element is skipped silently
— `processGroup` leaves the state unchanged for it, and whenever the
containers are found `_parse_page` folds over ALL groups and logs no
warnings (no early return); on a page with a defective middle group the
surrounding «А» and «Б» groups are still counted. -/
theorem c10_group_skip_silent :
    (∀ (ro : Bool) (m : LetterMap) (g : Node),
      (findIn (isTag "h3") g = none ∨ findIn (isTag "ul") g = none) →
      processGroup ro m g = m) ∧
    (∀ (ro : Bool) (soup : Node) (m : LetterMap) (d c : Node),
      findIn (isDivWithId "mw-pages") soup = some d →
      findIn (isDivWithClass "mw-content-ltr") d = some c →
      parsePage ro soup m =
        ((findAllIn (isDivWithClass "mw-category-group") c).foldl
          (processGroup ro) m, [])) ∧
    parsePage false pageSkipMiddle [] = ([("А", 2), ("Б", 1)], []) := by
  refine ⟨?_, ?_, rfl⟩
  · rintro ro m g (h | h)
    · simp [processGroup, h]
    · cases h3t : findIn (isTag "h3") g <;> simp [processGroup, h, h3t]
  · intro ro soup m d c h1 h2
    simp [parsePage, h1, h2]

open Task2 in
/-- Witness for C10: the skip statement applied to the concrete group
without a list element, over a non-empty state. -/
theorem c10_group_skip_silent_witness :
    processGroup false [("А", 2)] groupNoUl = [("А", 2)] :=
  c10_group_skip_silent.1 false [("А", 2)] groupNoUl (Or.inr rfl)
